import Mathlib

/-!
Verification of the llm_utils batch-processing core: the resume scan
(enumerate_resume), the per-item pipeline (process_item), the scheduler
(batch_run) and the bounded-retry completion wrapper (get_completion),
embedded shallowly from src/batch_utils.py, src/jsonl_utils.py and
src/litellm_utils.py.
-/

namespace LlmUtils

/-- Identifier-field values stored in items and records.  Python compares
them with structural equality; integers suffice for the model. -/
abbrev Val := Int

/-- A Python dict read from a dataset or a JSON line, modelled as an
association list from field names to values; lookup takes the first
binding, matching a dict with unique keys. -/
abbrev Item := List (String × Val)

/-- A record appended to the output log (same shape as an Item). -/
abbrev Record := Item

/-- `d[k]` as a total function: `some v` when the key is present. -/
def lookupKey : Item → String → Option Val
  | [], _ => none
  | (k, v) :: rest, key => if k = key then some v else lookupKey rest key

/-- Errors the Python code can raise: a KeyError from `d[k]`, a
jsonlines InvalidLineError from a malformed log line, or an error raised
inside a caller-supplied callback. -/
inductive PyErr where
  | keyError (key : String)
  | invalidLine
  | callbackErr (msg : String)
deriving DecidableEq, Repr

/-- One line of the output log file: either a well-formed record or a
line jsonlines fails to parse. -/
inductive LogLine where
  | ok (r : Record)
  | malformed
deriving DecidableEq, Repr

/-- The file at `output_path`: `none` when no file exists (the
`osp.exists` check fails), otherwise the list of its lines. -/
abbrev LogState := Option (List LogLine)

/-- The lines of the file, an absent file reading as empty (opening in
append mode creates it). -/
def linesOf : LogState → List LogLine
  | none => []
  | some ls => ls

/-- `d[k]` as Python evaluates it: raises KeyError when absent. -/
def lookupE (d : Item) (key : String) : Except PyErr Val :=
  match lookupKey d key with
  | some v => .ok v
  | none => .error (.keyError key)

/-- Python `enumerate` starting at index `i`. -/
def enumFromIdx (i : Nat) : List Item → List (Nat × Item)
  | [] => []
  | x :: xs => (i, x) :: enumFromIdx (i + 1) xs

/-- The `exist_items` loop of enumerate_resume: read every log line with
jsonlines and collect `item[id_key]` of each record, raising on a
malformed line or a record lacking the key. -/
def readIds : List LogLine → String → Except PyErr (List Val)
  | [], _ => .ok []
  | .malformed :: _, _ => .error .invalidLine
  | .ok r :: rest, key =>
    match lookupKey r key with
    | none => .error (.keyError key)
    | some v =>
      match readIds rest key with
      | .error e => .error e
      | .ok vs => .ok (v :: vs)

/-- The second loop of enumerate_resume: keep the `(index, item)` pairs
whose `item[id_key]` is not among `ids`, in order, raising KeyError on
an item lacking the key. -/
def filterPending : List (Nat × Item) → List Val → String → Except PyErr (List (Nat × Item))
  | [], _, _ => .ok []
  | (i, it) :: rest, ids, key =>
    match lookupKey it key with
    | none => .error (.keyError key)
    | some v =>
      match filterPending rest ids key with
      | .error e => .error e
      | .ok tail => if v ∈ ids then .ok tail else .ok ((i, it) :: tail)

/-- batch_utils.enumerate_resume (and the identical-bodied
jsonl_utils.enumerate_resume, which differs only in its default key):
when no file exists at output_path, yield every `(index, item)` pair;
otherwise read the identifier of every record in the log and yield the
pairs whose identifier is not among them.  The generator is consumed in
full by batch_run, so it is embedded as the eager list of its yields
(the log is read before the first yield in the source, so interleaved
appends cannot change the outcome). -/
def enumerate_resume (dataset : List Item) (st : LogState) (id_key : String) :
    Except PyErr (List (Nat × Item)) :=
  match st with
  | none => .ok (enumFromIdx 0 dataset)
  | some lines =>
    match readIds lines id_key with
    | .error e => .error e
    | .ok exist_items => filterPending (enumFromIdx 0 dataset) exist_items id_key

/-- jsonl_utils.write_jsonl: open the file in mode "a" when `append`
else "w" (truncating), and write each record as one line.  Opening
creates the file when absent. -/
def write_jsonl (st : LogState) (data : List Record) (append : Bool) : LogState :=
  if append then some (linesOf st ++ data.map LogLine.ok)
  else some (data.map LogLine.ok)

/-- batch_utils.process_item: run assemble, run_func and
process_result_func in order (any exception propagates), print a
progress line reading `item["id"]` (a KeyError when the field is
absent), and when the processed result is not None append it to the
output log under the FileLock; return the processed result.  `item_id`
and `total_items` are accepted, as in the source, without affecting the
outcome. -/
def process_item {α β : Type} (item_id total_items : Nat) (item : Item)
    (assemble_func : Item → Except PyErr α)
    (run_func : α → Except PyErr β)
    (process_result_func : Item → α → β → Except PyErr (Option Record))
    (st : LogState) : Except PyErr (Option Record × LogState) :=
  match assemble_func item with
  | .error e => .error e
  | .ok assembled_input =>
    match run_func assembled_input with
    | .error e => .error e
    | .ok run_result =>
      match process_result_func item assembled_input run_result with
      | .error e => .error e
      | .ok processed_result =>
        match lookupE item "id" with
        | .error e => .error e
        | .ok _ =>
          match processed_result with
          | some rec => .ok (some rec, write_jsonl st [rec] true)
          | none => .ok (none, st)

/-- The per-pair dispatch of batch_run: process_item applied to each
`(item_id, item)` pair in turn, threading the log state and collecting
the returned results in pair order. -/
def runAll {α β : Type} (total_items : Nat)
    (assemble_func : Item → Except PyErr α)
    (run_func : α → Except PyErr β)
    (process_result_func : Item → α → β → Except PyErr (Option Record)) :
    List (Nat × Item) → LogState → Except PyErr (List (Option Record) × LogState)
  | [], st => .ok ([], st)
  | (item_id, item) :: rest, st =>
    match process_item item_id total_items item assemble_func run_func
        process_result_func st with
    | .error e => .error e
    | .ok (r, st') =>
      match runAll total_items assemble_func run_func process_result_func rest st' with
      | .error e => .error e
      | .ok (rs, st'') => .ok (r :: rs, st'')

/-- batch_utils.batch_run: compute the resume set with enumerate_resume
at its default id_key = "id", then apply process_item to every pair.
The num_threads > 1 branch materializes the same task list and hands it
to Pool.starmap, which returns results in task order; it is modelled
here by the same in-order fold, one admissible serialization of the
pool (claims about pool-internal scheduling are not settled through
this branch). -/
def batch_run {α β : Type} (dataset : List Item) (num_threads : Nat)
    (assemble_func : Item → Except PyErr α)
    (run_func : α → Except PyErr β)
    (process_result_func : Item → α → β → Except PyErr (Option Record))
    (st : LogState) : Except PyErr (List (Option Record) × LogState) :=
  let total_items := dataset.length
  match enumerate_resume dataset st "id" with
  | .error e => .error e
  | .ok resume_dataset =>
    if num_threads > 1 then
      runAll total_items assemble_func run_func process_result_func resume_dataset st
    else
      runAll total_items assemble_func run_func process_result_func resume_dataset st

/-- A chat message, as built by litellm_utils.get_completion. -/
structure Message where
  role : String
  content : String
deriving DecidableEq, Repr

/-- The arguments get_completion passes to litellm.completion on every
attempt (identical across attempts). -/
structure CompletionRequest where
  model : String
  messages : List Message
  max_tokens : Int
  timeout : Nat
  temperature : Rat
deriving DecidableEq, Repr

/-- The outcome of one call to the remote completion endpoint: a
response, a litellm RateLimitError, an openai APITimeoutError, or any
other exception. -/
inductive CallOutcome (ρ ε : Type) where
  | success (r : ρ)
  | rateLimit
  | timeoutErr
  | fatal (e : ε)
deriving DecidableEq, Repr

/-- How get_completion terminates: a returned response, a re-raised
non-retryable exception, or a CompletionFailedException carrying the
formatted message. -/
inductive CompletionOutcome (ρ ε : Type) where
  | ok (r : ρ)
  | fatal (e : ε)
  | exhausted (msg : String)
deriving DecidableEq, Repr

/-- The retry loop `for _ in range(max_attempts)` of get_completion:
`remaining` iterations left, `made` calls already made.  Returns `none`
when the loop falls through with every attempt retried, else the
terminating outcome, paired with the total number of calls to the
remote endpoint. -/
def completionLoop {ρ ε : Type} (stub : Nat → CompletionRequest → CallOutcome ρ ε)
    (req : CompletionRequest) : Nat → Nat → Option (Except ε ρ) × Nat
  | 0, made => (none, made)
  | remaining + 1, made =>
    match stub made req with
    | .success r => (some (.ok r), made + 1)
    | .rateLimit => completionLoop stub req remaining (made + 1)
    | .timeoutErr => completionLoop stub req remaining (made + 1)
    | .fatal e => (some (.error e), made + 1)

/-- litellm_utils.get_completion: build the litellm model name and the
message list (optional system message first, then the user prompt),
then call the remote endpoint up to max_attempts times, retrying on
rate-limit and timeout errors, re-raising anything else, and raising
CompletionFailedException once attempts run out.  The remote
litellm.completion call is the external collaborator, supplied as
`stub`, indexed by the number of calls already made; the pair's second
component counts the calls performed. -/
def get_completion {ρ ε : Type} (llm_provider : Option String) (llm_model : String)
    (llm_max_token : Int) (llm_temperature : Rat) (user_prompt : String)
    (completion_identifier : String) (max_attempts : Nat) (timeout : Nat)
    (system_prompt : Option String)
    (stub : Nat → CompletionRequest → CallOutcome ρ ε) :
    CompletionOutcome ρ ε × Nat :=
  let litellm_model :=
    match llm_provider with
    | some p => p ++ "/" ++ llm_model
    | none => llm_model
  let messages :=
    match system_prompt with
    | some sys => [⟨"system", sys⟩, ⟨"user", user_prompt⟩]
    | none => [⟨"user", user_prompt⟩]
  let req : CompletionRequest :=
    ⟨litellm_model, messages, llm_max_token, timeout, llm_temperature⟩
  match completionLoop stub req max_attempts 0 with
  | (some (.ok r), n) => (.ok r, n)
  | (some (.error e), n) => (.fatal e, n)
  | (none, n) =>
    (.exhausted ("Failed to get completion for " ++ completion_identifier ++
      " after " ++ toString max_attempts ++ " attempts. Exiting"), n)

/-- Spec-side characterization of the resume scan (ResumeScanner, spec
section 4.1): the pairs of the enumerated dataset whose identifier-field
value is not among the identifier values `ids` read from the output
log, in dataset order. -/
def pendingOf (dataset : List Item) (ids : List Val) (key : String) : List (Nat × Item) :=
  (enumFromIdx 0 dataset).filter fun p =>
    match lookupKey p.2 key with
    | some v => !(ids.contains v)
    | none => true

/-- A sequential execution trace: the log states chain through
process_item applied to each pair in order, producing the matching
result entry. -/
def seqChain {α β : Type} (total_items : Nat)
    (assemble_func : Item → Except PyErr α)
    (run_func : α → Except PyErr β)
    (process_result_func : Item → α → β → Except PyErr (Option Record)) :
    LogState → List (Nat × Item) → List (Option Record) → LogState → Prop
  | st, [], [], st' => st = st'
  | st, (i, it) :: ps, r :: rs, st' =>
    ∃ stm, process_item i total_items it assemble_func run_func
        process_result_func st = .ok (r, stm) ∧
      seqChain total_items assemble_func run_func process_result_func stm ps rs st'
  | _, _, _, _ => False

example :
    enumerate_resume [[("id", 1)], [("id", 2)], [("id", 3)]]
      (some [LogLine.ok [("id", 2)]]) "id" =
      .ok [(0, [("id", 1)]), (2, [("id", 3)])] := rfl

example :
    enumerate_resume [[("id", 1)], [("id", 2)]] none "id" =
      .ok [(0, [("id", 1)]), (1, [("id", 2)])] := rfl

example :
    enumerate_resume [[("id", 1)]] (some [LogLine.malformed]) "id" =
      .error .invalidLine := rfl

lemma mem_enumFromIdx_snd {p : Nat × Item} :
    ∀ (n : Nat) (ds : List Item), p ∈ enumFromIdx n ds → p.2 ∈ ds := by
  intro n ds
  induction ds generalizing n with
  | nil => intro h; simp [enumFromIdx] at h
  | cons x xs ih =>
    intro h
    simp only [enumFromIdx, List.mem_cons] at h
    rcases h with h | h
    · subst h; simp
    · exact List.mem_cons_of_mem x (ih (n + 1) h)

lemma filterPending_eq_filter (ids : List Val) (key : String) :
    ∀ l : List (Nat × Item), (∀ p ∈ l, (lookupKey p.2 key).isSome) →
      filterPending l ids key =
        .ok (l.filter fun p =>
          match lookupKey p.2 key with
          | some v => !(ids.contains v)
          | none => true) := by
  intro l
  induction l with
  | nil => intro _; rfl
  | cons q rest ih =>
    intro hall
    obtain ⟨i, it⟩ := q
    have hsome : (lookupKey it key).isSome := hall (i, it) (List.mem_cons_self _ _)
    obtain ⟨v, hv⟩ := Option.isSome_iff_exists.mp hsome
    have hrest := ih fun p hp => hall p (List.mem_cons_of_mem _ hp)
    by_cases hmem : v ∈ ids
    · simp [filterPending, hv, hrest, List.filter_cons, hmem]
    · simp [filterPending, hv, hrest, List.filter_cons, hmem]

/-- C1: the resume scan on an absent output file yields every
`(index, item)` pair of the dataset in order; on an existing readable
log whose records all carry the identifier key, and a dataset whose
items all carry it, it yields exactly the pairs whose identifier value
is not among the values read from the log, in dataset order. -/
theorem enumerate_resume_spec (dataset : List Item) (id_key : String) :
    enumerate_resume dataset none id_key = .ok (enumFromIdx 0 dataset) ∧
    ∀ (lines : List LogLine) (ids : List Val),
      readIds lines id_key = .ok ids →
      (∀ it ∈ dataset, (lookupKey it id_key).isSome) →
      enumerate_resume dataset (some lines) id_key = .ok (pendingOf dataset ids id_key) := by
  constructor
  · rfl
  · intro lines ids hread hkeys
    have hall : ∀ p ∈ enumFromIdx 0 dataset, (lookupKey p.2 id_key).isSome :=
      fun p hp => hkeys p.2 (mem_enumFromIdx_snd 0 dataset hp)
    simp [enumerate_resume, hread, pendingOf,
      filterPending_eq_filter ids id_key _ hall]

/-- C1 witness: the spec scenario with dataset ids 1, 2, 3 and a log
already holding id 2 yields the pairs at indices 0 and 2. -/
theorem enumerate_resume_spec_witness :
    enumerate_resume [[("id", 1)], [("id", 2)], [("id", 3)]]
        (some [LogLine.ok [("id", 2)]]) "id" =
      .ok (pendingOf [[("id", 1)], [("id", 2)], [("id", 3)]] [2] "id") ∧
    pendingOf [[("id", 1)], [("id", 2)], [("id", 3)]] [2] "id" =
      [(0, [("id", 1)]), (2, [("id", 3)])] :=
  ⟨(enumerate_resume_spec [[("id", 1)], [("id", 2)], [("id", 3)]] "id").2
      [LogLine.ok [("id", 2)]] [2] rfl (by decide), by decide⟩

lemma filterPending_not_mem (ids : List Val) (key : String) :
    ∀ (l out : List (Nat × Item)), filterPending l ids key = .ok out →
      ∀ (i : Nat) (item : Item) (v : Val),
        (i, item) ∈ out → lookupKey item key = some v → v ∉ ids := by
  intro l
  induction l with
  | nil =>
    intro out hout i item v hmem _
    simp [filterPending] at hout
    subst hout
    simp at hmem
  | cons q rest ih =>
    intro out hout i item v hmem hv
    obtain ⟨j, jt⟩ := q
    cases hjt : lookupKey jt key with
    | none => simp [filterPending, hjt] at hout
    | some w =>
      cases hrest : filterPending rest ids key with
      | error e => simp [filterPending, hjt, hrest] at hout
      | ok tail =>
        by_cases hw : w ∈ ids
        · simp only [filterPending, hjt, hrest, if_pos hw, Except.ok.injEq] at hout
          subst hout
          exact ih tail hrest i item v hmem hv
        · simp only [filterPending, hjt, hrest, if_neg hw, Except.ok.injEq] at hout
          subst hout
          rcases List.mem_cons.mp hmem with heq | htail
          · have hjt2 : item = jt := congrArg Prod.snd heq
            subst hjt2
            rw [hjt] at hv
            injection hv with hv
            subst hv
            exact hw
          · exact ih tail hrest i item v htail hv

/-- C2: any pair the resume scan yields against an existing output log
has an identifier that is not among the identifiers read from that log,
so re-running against the same log never reprocesses an item whose
identifier is already present. -/
theorem enumerate_resume_idempotent (dataset : List Item) (lines : List LogLine)
    (id_key : String) (pairs : List (Nat × Item)) (ids : List Val)
    (henum : enumerate_resume dataset (some lines) id_key = .ok pairs)
    (hids : readIds lines id_key = .ok ids)
    (i : Nat) (item : Item) (v : Val)
    (hmem : (i, item) ∈ pairs) (hv : lookupKey item id_key = some v) :
    v ∉ ids := by
  simp only [enumerate_resume, hids] at henum
  exact filterPending_not_mem ids id_key _ pairs henum i item v hmem hv

/-- C2 witness: against a log holding id 2, the yielded pair with id 1
indeed has its identifier outside the log's identifier set. -/
theorem enumerate_resume_idempotent_witness : (1 : Val) ∉ [(2 : Val)] :=
  enumerate_resume_idempotent [[("id", 1)], [("id", 2)], [("id", 3)]]
    [LogLine.ok [("id", 2)]] "id" [(0, [("id", 1)]), (2, [("id", 3)])] [2]
    rfl rfl 0 [("id", 1)] 1 (by decide) (by decide)

lemma readIds_malformed_error (key : String) :
    ∀ lines : List LogLine, LogLine.malformed ∈ lines →
      ∃ e, readIds lines key = .error e := by
  intro lines
  induction lines with
  | nil => intro h; simp at h
  | cons l rest ih =>
    intro h
    cases l with
    | malformed => exact ⟨.invalidLine, rfl⟩
    | ok r =>
      have hrest : LogLine.malformed ∈ rest := by
        rcases List.mem_cons.mp h with heq | hm
        · exact absurd heq (by simp)
        · exact hm
      cases hr : lookupKey r key with
      | none => exact ⟨.keyError key, by simp [readIds, hr]⟩
      | some v =>
        obtain ⟨e, he⟩ := ih hrest
        exact ⟨e, by simp [readIds, hr, he]⟩

/-- C7: a malformed line in an existing output log makes the resume scan
propagate an error instead of yielding anything. -/
theorem enumerate_resume_malformed_fails (dataset : List Item)
    (lines : List LogLine) (id_key : String)
    (h : LogLine.malformed ∈ lines) :
    ∃ e, enumerate_resume dataset (some lines) id_key = .error e := by
  obtain ⟨e, he⟩ := readIds_malformed_error id_key lines h
  exact ⟨e, by simp [enumerate_resume, he]⟩

/-- C7 witness: a log whose second line is unparsable aborts the scan. -/
theorem enumerate_resume_malformed_fails_witness :
    ∃ e, enumerate_resume [[("id", 1)]]
      (some [LogLine.ok [("id", 2)], LogLine.malformed]) "id" = .error e :=
  enumerate_resume_malformed_fails [[("id", 1)]]
    [LogLine.ok [("id", 2)], LogLine.malformed] "id" (by decide)

/-- C5: when assemble, run and post-process succeed and the item carries
an "id" field, process_item appends exactly the post-processed record to
the log when post-processing returns one, and appends nothing and
returns None when it returns None. -/
theorem process_item_append_iff {α β : Type} (item_id total_items : Nat)
    (item : Item) (f : Item → Except PyErr α) (g : α → Except PyErr β)
    (h : Item → α → β → Except PyErr (Option Record)) (st : LogState)
    (a : α) (b : β) (p : Option Record) (v : Val)
    (ha : f item = .ok a) (hb : g a = .ok b)
    (hp : h item a b = .ok p) (hid : lookupKey item "id" = some v) :
    (∀ rec, p = some rec →
      process_item item_id total_items item f g h st =
        .ok (some rec, some (linesOf st ++ [LogLine.ok rec]))) ∧
    (p = none →
      process_item item_id total_items item f g h st = .ok (none, st)) := by
  constructor
  · intro rec hrec
    subst hrec
    simp [process_item, ha, hb, hp, lookupE, hid, write_jsonl]
  · intro hrec
    subst hrec
    simp [process_item, ha, hb, hp, lookupE, hid]

/-- C5 witness: a post-process returning a record appends exactly that
record; one returning None leaves the log as it was and yields None. -/
theorem process_item_append_iff_witness :
    process_item 0 2 [("id", 5)] (fun _ => Except.ok (0 : Int))
        (fun _ => Except.ok (0 : Int)) (fun it _ _ => Except.ok (some it))
        (some [LogLine.ok [("id", 9)]]) =
      .ok (some [("id", 5)],
        some [LogLine.ok [("id", 9)], LogLine.ok [("id", 5)]]) ∧
    process_item 0 2 [("id", 5)] (fun _ => Except.ok (0 : Int))
        (fun _ => Except.ok (0 : Int)) (fun _ _ _ => Except.ok none)
        (some [LogLine.ok [("id", 9)]]) =
      .ok (none, some [LogLine.ok [("id", 9)]]) :=
  ⟨(process_item_append_iff 0 2 [("id", 5)] (fun _ => Except.ok (0 : Int))
      (fun _ => Except.ok (0 : Int)) (fun it _ _ => Except.ok (some it))
      (some [LogLine.ok [("id", 9)]])
      0 0 (some [("id", 5)]) 5 rfl rfl rfl (by decide)).1 [("id", 5)] rfl,
   (process_item_append_iff 0 2 [("id", 5)] (fun _ => Except.ok (0 : Int))
      (fun _ => Except.ok (0 : Int)) (fun _ _ _ => Except.ok none)
      (some [LogLine.ok [("id", 9)]])
      0 0 none 5 rfl rfl rfl (by decide)).2 rfl⟩

/-- C8: whenever process_item returns, the prior lines of the output log
are a prefix of the new lines: appends extend the file, never mutate or
delete existing records. -/
theorem process_item_log_preserved {α β : Type} (item_id total_items : Nat)
    (item : Item) (f : Item → Except PyErr α) (g : α → Except PyErr β)
    (h : Item → α → β → Except PyErr (Option Record)) (st : LogState)
    (res : Option Record) (st' : LogState)
    (hrun : process_item item_id total_items item f g h st = .ok (res, st')) :
    ∃ tail, linesOf st' = linesOf st ++ tail := by
  cases hf : f item with
  | error e => simp [process_item, hf] at hrun
  | ok a =>
    cases hg : g a with
    | error e => simp [process_item, hf, hg] at hrun
    | ok b =>
      cases hh : h item a b with
      | error e => simp [process_item, hf, hg, hh] at hrun
      | ok p =>
        cases hid : lookupKey item "id" with
        | none => simp [process_item, hf, hg, hh, lookupE, hid] at hrun
        | some v =>
          cases p with
          | none =>
            simp only [process_item, hf, hg, hh, lookupE, hid,
              Except.ok.injEq, Prod.mk.injEq] at hrun
            exact ⟨[], by rw [← hrun.2]; simp⟩
          | some rec =>
            simp only [process_item, hf, hg, hh, lookupE, hid, write_jsonl,
              if_pos, Except.ok.injEq, Prod.mk.injEq] at hrun
            exact ⟨[LogLine.ok rec], by rw [← hrun.2]; simp [linesOf]⟩

/-- C8 witness: an append after one existing record leaves that record
in place as a prefix of the new contents. -/
theorem process_item_log_preserved_witness :
    ∃ tail, linesOf (some [LogLine.ok [("id", 9)], LogLine.ok [("id", 5)]]) =
      linesOf (some [LogLine.ok [("id", 9)]]) ++ tail :=
  process_item_log_preserved 0 2 [("id", 5)] (fun _ => Except.ok (0 : Int))
    (fun _ => Except.ok (0 : Int)) (fun it _ _ => Except.ok (some it))
    (some [LogLine.ok [("id", 9)]]) (some [("id", 5)])
    (some [LogLine.ok [("id", 9)], LogLine.ok [("id", 5)]]) rfl

lemma runAll_seqChain {α β : Type} (total_items : Nat)
    (f : Item → Except PyErr α) (g : α → Except PyErr β)
    (h : Item → α → β → Except PyErr (Option Record)) :
    ∀ (l : List (Nat × Item)) (st : LogState) (results : List (Option Record))
      (st' : LogState), runAll total_items f g h l st = .ok (results, st') →
      seqChain total_items f g h st l results st' := by
  intro l
  induction l with
  | nil =>
    intro st results st' hrun
    simp only [runAll, Except.ok.injEq, Prod.mk.injEq] at hrun
    obtain ⟨h1, h2⟩ := hrun
    subst h1; subst h2
    rfl
  | cons q rest ih =>
    intro st results st' hrun
    obtain ⟨i, it⟩ := q
    cases hpi : process_item i total_items it f g h st with
    | error e => simp [runAll, hpi] at hrun
    | ok pr =>
      obtain ⟨r, stm⟩ := pr
      cases hrest : runAll total_items f g h rest stm with
      | error e => simp [runAll, hpi, hrest] at hrun
      | ok pr2 =>
        obtain ⟨rs, st''⟩ := pr2
        simp only [runAll, hpi, hrest, Except.ok.injEq, Prod.mk.injEq] at hrun
        obtain ⟨h1, h2⟩ := hrun
        subst h1; subst h2
        exact ⟨stm, hpi, ih stm rs st'' hrest⟩

lemma seqChain_length {α β : Type} (total_items : Nat)
    (f : Item → Except PyErr α) (g : α → Except PyErr β)
    (h : Item → α → β → Except PyErr (Option Record)) :
    ∀ (l : List (Nat × Item)) (st : LogState) (results : List (Option Record))
      (st' : LogState), seqChain total_items f g h st l results st' →
      results.length = l.length := by
  intro l
  induction l with
  | nil =>
    intro st results st' hc
    cases results with
    | nil => rfl
    | cons r rs => exact hc.elim
  | cons q rest ih =>
    intro st results st' hc
    obtain ⟨i, it⟩ := q
    cases results with
    | nil => exact hc.elim
    | cons r rs =>
      obtain ⟨stm, _, hc2⟩ := hc
      simpa using ih stm rs st' hc2

/-- C9: with num_threads at most 1, batch_run runs process_item
sequentially over the resume pairs in dataset order, threading the log
state, and returns one result entry (possibly None) per pair in that
same order. -/
theorem batch_run_sequential {α β : Type} (dataset : List Item)
    (num_threads : Nat) (f : Item → Except PyErr α) (g : α → Except PyErr β)
    (h : Item → α → β → Except PyErr (Option Record)) (st : LogState)
    (pairs : List (Nat × Item)) (results : List (Option Record)) (st' : LogState)
    (hnt : num_threads ≤ 1)
    (hscan : enumerate_resume dataset st "id" = .ok pairs)
    (hrun : batch_run dataset num_threads f g h st = .ok (results, st')) :
    results.length = pairs.length ∧
      seqChain dataset.length f g h st pairs results st' := by
  have hngt : ¬ num_threads > 1 := by omega
  simp only [batch_run, hscan, if_neg hngt] at hrun
  have hchain := runAll_seqChain dataset.length f g h pairs st results st' hrun
  exact ⟨seqChain_length dataset.length f g h pairs st results st' hchain, hchain⟩

/-- C9 witness: a sequential run over a two-item dataset with id 2
already logged processes only the pair at index 0 and returns its single
result. -/
theorem batch_run_sequential_witness :
    ([some [("id", 1)]] : List (Option Record)).length =
      ([(0, [("id", 1)])] : List (Nat × Item)).length ∧
    seqChain 2 (fun _ => Except.ok (0 : Int)) (fun _ => Except.ok (0 : Int))
      (fun it _ _ => Except.ok (some it)) (some [LogLine.ok [("id", 2)]])
      [(0, [("id", 1)])] [some [("id", 1)]]
      (some [LogLine.ok [("id", 2)], LogLine.ok [("id", 1)]]) :=
  batch_run_sequential [[("id", 1)], [("id", 2)]] 1 _ _ _
    (some [LogLine.ok [("id", 2)]]) [(0, [("id", 1)])] [some [("id", 1)]]
    (some [LogLine.ok [("id", 2)], LogLine.ok [("id", 1)]])
    (Nat.le_refl 1) rfl rfl

/-- C10: the identifier field is hard-wired to "id": process_item raises
a KeyError for an item lacking "id" even when post-processing returns
None, and batch_run scanning a log whose record lacks "id" fails with
that KeyError whatever other keys the record carries. -/
theorem batch_run_id_key_fixed {α β : Type} :
    (∀ (item_id total_items : Nat) (item : Item)
      (f : Item → Except PyErr α) (g : α → Except PyErr β)
      (h : Item → α → β → Except PyErr (Option Record)) (st : LogState)
      (a : α) (b : β),
      lookupKey item "id" = none →
      f item = .ok a → g a = .ok b → h item a b = .ok none →
      process_item item_id total_items item f g h st =
        .error (.keyError "id")) ∧
    (∀ (dataset : List Item) (num_threads : Nat)
      (f : Item → Except PyErr α) (g : α → Except PyErr β)
      (h : Item → α → β → Except PyErr (Option Record)) (rec : Record),
      lookupKey rec "id" = none →
      batch_run dataset num_threads f g h (some [LogLine.ok rec]) =
        .error (.keyError "id")) := by
  constructor
  · intro item_id total_items item f g h st a b hid ha hb hp
    simp [process_item, ha, hb, hp, lookupE, hid]
  · intro dataset num_threads f g h rec hrec
    simp [batch_run, enumerate_resume, readIds, hrec]

/-- C10 witness: an item and a log record keyed only by "task_id" make
process_item and batch_run fail with KeyError "id". -/
theorem batch_run_id_key_fixed_witness :
    process_item 0 1 [("task_id", 5)] (fun _ => Except.ok (0 : Int))
        (fun _ => Except.ok (0 : Int)) (fun _ _ _ => Except.ok none) none =
      .error (.keyError "id") ∧
    batch_run [[("task_id", 5)]] 1 (fun _ => Except.ok (0 : Int))
        (fun _ => Except.ok (0 : Int)) (fun _ _ _ => Except.ok none)
        (some [LogLine.ok [("task_id", 7)]]) =
      .error (.keyError "id") :=
  ⟨batch_run_id_key_fixed.1 0 1 [("task_id", 5)] _ _ _ none 0 0
      (by decide) rfl rfl rfl,
   batch_run_id_key_fixed.2 [[("task_id", 5)]] 1 _ _ _ [("task_id", 7)]
      (by decide)⟩

lemma completionLoop_all_retry {ρ ε : Type}
    (stub : Nat → CompletionRequest → CallOutcome ρ ε) (req : CompletionRequest)
    (hstub : ∀ n, stub n req = .rateLimit ∨ stub n req = .timeoutErr) :
    ∀ remaining made : Nat,
      completionLoop stub req remaining made = (none, made + remaining) := by
  intro remaining
  induction remaining with
  | zero => intro made; simp [completionLoop]
  | succ n ih =>
    intro made
    rcases hstub made with hcase | hcase
    · simp only [completionLoop, hcase, ih (made + 1)]
      congr 1
      omega
    · simp only [completionLoop, hcase, ih (made + 1)]
      congr 1
      omega

/-- C3: with max_attempts = k at least 1 and a remote endpoint raising a
retryable (rate-limit or timeout) failure on every attempt,
get_completion calls the endpoint exactly k times and then fails with
the CompletionFailedException message carrying the call identifier and
the attempt count. -/
theorem get_completion_exhausts {ρ ε : Type} (llm_provider : Option String)
    (llm_model : String) (llm_max_token : Int) (llm_temperature : Rat)
    (user_prompt completion_identifier : String) (k timeout : Nat)
    (system_prompt : Option String)
    (stub : Nat → CompletionRequest → CallOutcome ρ ε)
    (hk : 1 ≤ k)
    (hstub : ∀ n req, stub n req = .rateLimit ∨ stub n req = .timeoutErr) :
    get_completion llm_provider llm_model llm_max_token llm_temperature
        user_prompt completion_identifier k timeout system_prompt stub =
      (.exhausted ("Failed to get completion for " ++ completion_identifier ++
        " after " ++ toString k ++ " attempts. Exiting"), k) := by
  simp only [get_completion]
  rw [completionLoop_all_retry stub _ (fun n => hstub n _) k 0]
  simp

/-- C3 witness: three attempts against an always-rate-limited endpoint
make exactly three calls and end exhausted. -/
theorem get_completion_exhausts_witness :
    get_completion (some "openai") "gpt" 100 1 "hi" "call1" 3 60 none
        (fun _ _ => (CallOutcome.rateLimit : CallOutcome Nat String)) =
      (.exhausted ("Failed to get completion for " ++ "call1" ++
        " after " ++ toString 3 ++ " attempts. Exiting"), 3) :=
  get_completion_exhausts (some "openai") "gpt" 100 1 "hi" "call1" 3 60 none
    (fun _ _ => (CallOutcome.rateLimit : CallOutcome Nat String))
    (by decide) (fun _ _ => Or.inl rfl)

/-- C4: a remote endpoint raising a non-retryable error on the first
attempt is called exactly once and get_completion propagates that error
immediately, with no retry. -/
theorem get_completion_fatal_propagates {ρ ε : Type} (llm_provider : Option String)
    (llm_model : String) (llm_max_token : Int) (llm_temperature : Rat)
    (user_prompt completion_identifier : String) (max_attempts timeout : Nat)
    (system_prompt : Option String)
    (stub : Nat → CompletionRequest → CallOutcome ρ ε) (e : ε)
    (hk : 1 ≤ max_attempts)
    (hstub : ∀ req, stub 0 req = .fatal e) :
    get_completion llm_provider llm_model llm_max_token llm_temperature
        user_prompt completion_identifier max_attempts timeout
        system_prompt stub = (.fatal e, 1) := by
  obtain ⟨m, rfl⟩ : ∃ m, max_attempts = m + 1 := ⟨max_attempts - 1, by omega⟩
  simp only [get_completion, completionLoop, hstub]

/-- C4 witness: a stub failing fatally on attempt 0 is called once and
its error comes straight back. -/
theorem get_completion_fatal_propagates_witness :
    get_completion none "gpt" 100 1 "hi" "call2" 10 60 (some "sys")
        (fun _ _ => (CallOutcome.fatal "boom" : CallOutcome Nat String)) =
      (.fatal "boom", 1) :=
  get_completion_fatal_propagates none "gpt" 100 1 "hi" "call2" 10 60
    (some "sys") (fun _ _ => (CallOutcome.fatal "boom" : CallOutcome Nat String))
    "boom" (by decide) (fun _ => rfl)

end LlmUtils
